import Mathlib

/-!
Verification of the validator framework and calculator of the
feature-calculator repository, shallowly embedded in Lean.

Sources embedded here:
- src/feature_calculator/validator.py (NumericValidator, StringValidator,
  DictValidator, ListValidator);
- src/feature_calculator/calculator.py (Calculator.divide,
  Calculator.square_root).

Modelling conventions:
- Python runtime values are the inductive type PyVal; Python dicts with
  string keys become association lists in insertion order, matching
  Python dict iteration order.
- Python floats are modelled as exact rationals; every claim settled here
  concerns comparisons and control flow, not rounding.
- A validator instance is a Validator tree: its configuration fields plus
  the mutable last-error field of each node.
- A validate method mutates only error fields; its decisions never read
  them.  Validator.validate gives the decision and the message the call
  stores into the callee; Validator.run gives the full post-state of the
  instance tree (fuelled, with fuel proven sufficient below).
-/

/-- A Python runtime value, covering the shapes the validator module
inspects: None, int, float, bool, str, list, tuple and (string-keyed)
dict. -/
inductive PyVal : Type where
  | none : PyVal
  | int (n : Int) : PyVal
  | float (q : ℚ) : PyVal
  | bool (b : Bool) : PyVal
  | str (s : String) : PyVal
  | list (xs : List PyVal) : PyVal
  | tuple (xs : List PyVal) : PyVal
  | dict (entries : List (String × PyVal)) : PyVal

/-- Python type(data).__name__ for each PyVal shape. -/
def PyVal.typeName : PyVal → String
  | .none => "NoneType"
  | .int _ => "int"
  | .float _ => "float"
  | .bool _ => "bool"
  | .str _ => "str"
  | .list _ => "list"
  | .tuple _ => "tuple"
  | .dict _ => "dict"

/-- Whether a value is exactly a Python list. -/
def PyVal.isList : PyVal → Bool
  | .list _ => true
  | _ => false

/-- Whether a value is Python None. -/
def PyVal.isNone : PyVal → Bool
  | .none => true
  | _ => false

/-- Rendering of a float for f-string interpolation.  Python prints an
integral float as "5.0"; a non-integral rational is rendered here as a
fraction, a divergence from Python decimal notation that no claim
depends on. -/
def floatRepr (q : ℚ) : String :=
  if q.den = 1 then toString q.num ++ ".0"
  else toString q.num ++ "/" ++ toString q.den

mutual

/-- Python repr() of a value (as embedded in container renderings).
Strings are quoted with \x27; nested containers use repr recursively. -/
def PyVal.pyRepr : PyVal → String
  | .none => "None"
  | .int n => toString n
  | .float q => floatRepr q
  | .bool b => if b then "True" else "False"
  | .str s => "\x27" ++ s ++ "\x27"
  | .list xs => "[" ++ String.intercalate ", " (PyVal.pyReprList xs) ++ "]"
  | .tuple xs => "(" ++ String.intercalate ", " (PyVal.pyReprList xs) ++ ")"
  | .dict entries => "\x7b" ++ String.intercalate ", " (PyVal.pyReprEntries entries) ++ "\x7d"

/-- repr() of each element of a list of values. -/
def PyVal.pyReprList : List PyVal → List String
  | [] => []
  | x :: rest => x.pyRepr :: PyVal.pyReprList rest

/-- repr() of each key-value pair of a dict. -/
def PyVal.pyReprEntries : List (String × PyVal) → List String
  | [] => []
  | (k, v) :: rest => ("\x27" ++ k ++ "\x27: " ++ v.pyRepr) :: PyVal.pyReprEntries rest

end

/-- Python str() of a value: a bare string prints without quotes, other
values print as their repr. -/
def PyVal.pyStr : PyVal → String
  | .str s => s
  | v => v.pyRepr

/-- Value of a list of decimal digit characters. -/
def digitsVal (cs : List Char) : Nat :=
  cs.foldl (fun acc c => 10 * acc + (c.toNat - 48)) 0

/-- Whether every character in the list is a decimal digit. -/
def allDigits (cs : List Char) : Bool :=
  cs.all Char.isDigit

/-- Python float(s) on a string, modelled for plain decimal literals:
optional surrounding whitespace, an optional sign, digits with at most
one decimal point.  Exotic accepted forms (exponents, inf, nan,
underscores) are outside the modelled subset; no claim depends on the
textual coercion. -/
def parsePyFloat (s : String) : Option ℚ :=
  let cs := s.trim.toList
  let signBody : ℚ × List Char :=
    match cs with
    | '-' :: rest => (-1, rest)
    | '+' :: rest => (1, rest)
    | _ => (1, cs)
  let sign := signBody.1
  let body := signBody.2
  let intPart := body.takeWhile (fun c => c ≠ '.')
  let restPart := body.dropWhile (fun c => c ≠ '.')
  match restPart with
  | [] =>
    if allDigits intPart && !intPart.isEmpty then some (sign * (digitsVal intPart : ℚ))
    else Option.none
  | _ :: frac =>
    if allDigits intPart && allDigits frac && !(intPart.isEmpty && frac.isEmpty) then
      some (sign * ((digitsVal intPart : ℚ) + (digitsVal frac : ℚ) / (10 : ℚ) ^ frac.length))
    else Option.none

/-- Python float(data): succeeds on int, float, bool and numeric-looking
text; fails with ValueError/TypeError (caught by the validator) on
everything else, None included. -/
def pyFloat : PyVal → Option ℚ
  | .int n => some (n : ℚ)
  | .float q => some q
  | .bool b => some (if b then 1 else 0)
  | .str s => parsePyFloat s
  | _ => Option.none

/-- Lookup of a key in a dict value (first match; Python dict keys are
unique). -/
def dictLookup : List (String × PyVal) → String → Option PyVal
  | [], _ => Option.none
  | (k, v) :: rest, key => if k = key then some v else dictLookup rest key

/-- Python key-in-dict membership test. -/
def dictContains (entries : List (String × PyVal)) (key : String) : Bool :=
  (dictLookup entries key).isSome

/-- Python repr of a list of strings, as interpolated by the
allowed-values failure message. -/
def strListRepr (vals : List String) : String :=
  "[" ++ String.intercalate ", " (vals.map (fun s => "\x27" ++ s ++ "\x27")) ++ "]"

/-! ## Failure messages (the f-strings of validator.py) -/

/-- Message stored when a None value reaches a validator that does not
allow None. -/
def noneMsg : String := "Value cannot be None"

/-- Message of the numeric coercion failure branch. -/
def notNumericMsg (d : PyVal) : String :=
  "Value \x27" ++ d.pyStr ++ "\x27 is not numeric"

/-- Message of the numeric below-minimum branch. -/
def belowMinMsg (value m : ℚ) : String :=
  "Value " ++ floatRepr value ++ " is less than minimum " ++ floatRepr m

/-- Message of the numeric above-maximum branch. -/
def aboveMaxMsg (value m : ℚ) : String :=
  "Value " ++ floatRepr value ++ " is greater than maximum " ++ floatRepr m

/-- Message of the string type-mismatch branch. -/
def notStringMsg (d : PyVal) : String :=
  "Value must be string, got " ++ d.typeName

/-- Message of the string too-short branch. -/
def strShortMsg (n : Nat) (m : Int) : String :=
  "String length " ++ toString n ++ " is less than minimum " ++ toString m

/-- Message of the string too-long branch. -/
def strLongMsg (n : Nat) (m : Int) : String :=
  "String length " ++ toString n ++ " is greater than maximum " ++ toString m

/-- Message of the allowed-values membership failure branch. -/
def notAllowedMsg (s : String) (vals : List String) : String :=
  "Value \x27" ++ s ++ "\x27 not in allowed values: " ++ strListRepr vals

/-- Message of the dict type-mismatch branch. -/
def notDictMsg (d : PyVal) : String :=
  "Value must be dictionary, got " ++ d.typeName

/-- Message of the missing-required-key branch. -/
def missingKeyMsg (k : String) : String :=
  "Required key \x27" ++ k ++ "\x27 missing from dictionary"

/-- Message wrapping a nested failure for a dict key. -/
def invalidValueMsg (k msg : String) : String :=
  "Invalid value for key \x27" ++ k ++ "\x27: " ++ msg

/-- Message of the list type-mismatch branch. -/
def notListMsg (d : PyVal) : String :=
  "Value must be list, got " ++ d.typeName

/-- Message of the list too-short branch. -/
def listShortMsg (n : Nat) (m : Int) : String :=
  "List length " ++ toString n ++ " is less than minimum " ++ toString m

/-- Message of the list too-long branch. -/
def listLongMsg (n : Nat) (m : Int) : String :=
  "List length " ++ toString n ++ " is greater than maximum " ++ toString m

/-- Message wrapping a nested failure for a list element. -/
def invalidItemMsg (i : Nat) (msg : String) : String :=
  "Invalid item at index " ++ toString i ++ ": " ++ msg

/-! ## Per-branch checks shared by the decision and post-state functions -/

/-- NumericValidator maximum check: the failure message, if value exceeds
a configured max_value. -/
def numericMaxError (mx : Option ℚ) (value : ℚ) : Option String :=
  match mx with
  | some m => if value > m then some (aboveMaxMsg value m) else Option.none
  | Option.none => Option.none

/-- NumericValidator bound checks, minimum first, as in the source. -/
def numericBoundsError (mn mx : Option ℚ) (value : ℚ) : Option String :=
  match mn with
  | some m => if value < m then some (belowMinMsg value m) else numericMaxError mx value
  | Option.none => numericMaxError mx value

/-- StringValidator length checks, minimum first. -/
def stringLengthError (min_length : Int) (max_length : Option Int) (n : Nat) : Option String :=
  if (n : Int) < min_length then some (strShortMsg n min_length)
  else
    match max_length with
    | some m => if (n : Int) > m then some (strLongMsg n m) else Option.none
    | Option.none => Option.none

/-- StringValidator allowed-values membership check. -/
def allowedValuesError (allowed_values : Option (List String)) (s : String) : Option String :=
  match allowed_values with
  | some vals => if vals.contains s then Option.none else some (notAllowedMsg s vals)
  | Option.none => Option.none

/-- ListValidator length checks, minimum first. -/
def listLengthError (min_length : Int) (max_length : Option Int) (n : Nat) : Option String :=
  if (n : Int) < min_length then some (listShortMsg n min_length)
  else
    match max_length with
    | some m => if (n : Int) > m then some (listLongMsg n m) else Option.none
    | Option.none => Option.none

/-- DictValidator required-keys pass: the first name of required_keys (in
the order given) that is not a key of the input, if any. -/
def findMissingKey : List String → List (String × PyVal) → Option String
  | [], _ => Option.none
  | k :: rest, entries =>
    if dictContains entries k then findMissingKey rest entries else some k

/-- Outcome of a final optional check: fail with the produced message or
pass with the empty one. -/
def checkTail (r : Option String) : Bool × String :=
  match r with
  | some msg => (false, msg)
  | Option.none => (true, "")

/-- NumericValidator on a non-None input: coerce, then check bounds. -/
def numericCoerceResult (mn mx : Option ℚ) (d : PyVal) : Bool × String :=
  match pyFloat d with
  | Option.none => (false, notNumericMsg d)
  | some value => checkTail (numericBoundsError mn mx value)

/-- StringValidator on a string input: length checks, then membership. -/
def stringChecksResult (ml : Int) (mxl : Option Int) (av : Option (List String))
    (s : String) : Bool × String :=
  match stringLengthError ml mxl s.length with
  | some msg => (false, msg)
  | Option.none => checkTail (allowedValuesError av s)

/-- Outcome of DictValidator after its value loop. -/
def dictTail (r : Option (String × String)) : Bool × String :=
  match r with
  | some km => (false, invalidValueMsg km.1 km.2)
  | Option.none => (true, "")

/-- Outcome of ListValidator after its element loop. -/
def listItemsTail (r : Option (Nat × String)) : Bool × String :=
  match r with
  | some im => (false, invalidItemMsg im.1 im.2)
  | Option.none => (true, "")

/-! ## The validator hierarchy -/

/-- A validator instance of validator.py: one constructor per concrete
class, carrying the configuration fields set in __init__ plus the
mutable last-error field.  Nested validators (item_validator, the
validators mapping) are part of the tree; the validators mapping keeps
Python dict insertion order. -/
inductive Validator : Type where
  | NumericValidator (min_value max_value : Option ℚ) (allow_none : Bool)
      (error_message : String)
  | StringValidator (min_length : Int) (max_length : Option Int)
      (allowed_values : Option (List String)) (allow_none : Bool)
      (error_message : String)
  | DictValidator (required_keys : List String)
      (validators : List (String × Validator)) (error_message : String)
  | ListValidator (item_validator : Option Validator) (min_length : Int)
      (max_length : Option Int) (error_message : String)

/-- get_error_message(): the stored last-error field of the instance. -/
def Validator.get_error_message : Validator → String
  | .NumericValidator _ _ _ e => e
  | .StringValidator _ _ _ _ e => e
  | .DictValidator _ _ e => e
  | .ListValidator _ _ _ e => e

mutual

/-- validate(data): the boolean the call returns, paired with the string
the call assigns to the callee's _error_message (every path of every
validate method assigns it; success paths assign the empty string).
Decisions never read the error field, so this pure translation is exact;
Validator.run below additionally tracks the stored state. -/
def Validator.validate : Validator → PyVal → Bool × String
  | .NumericValidator min_value max_value allow_none _e, data =>
    match data with
    | .none =>
      if allow_none then (true, "") else (false, noneMsg)
    | d => numericCoerceResult min_value max_value d
  | .StringValidator min_length max_length allowed_values allow_none _e, data =>
    match data with
    | .none =>
      if allow_none then (true, "") else (false, noneMsg)
    | .str s => stringChecksResult min_length max_length allowed_values s
    | d => (false, notStringMsg d)
  | .DictValidator required_keys validators _e, data =>
    match data with
    | .dict entries =>
      match findMissingKey required_keys entries with
      | some k => (false, missingKeyMsg k)
      | Option.none => dictTail (Validator.checkEntries validators entries)
    | d => (false, notDictMsg d)
  | .ListValidator item_validator min_length max_length _e, data =>
    match data with
    | .list xs =>
      match listLengthError min_length max_length xs.length with
      | some msg => (false, msg)
      | Option.none =>
        match item_validator with
        | some child => listItemsTail (Validator.checkItems child xs 0)
        | Option.none => (true, "")
    | d => (false, notListMsg d)

/-- The element loop of ListValidator.validate: the 0-based index of the
first element the item validator rejects, with the message that call
stores (which is what item_validator.get_error_message() returns at the
point the wrapping message is built).  Elements after the first failure
are never examined. -/
def Validator.checkItems : Validator → List PyVal → Nat → Option (Nat × String)
  | _, [], _ => Option.none
  | child, x :: rest, i =>
    let r := Validator.validate child x
    if r.1 then Validator.checkItems child rest (i + 1)
    else some (i, r.2)

/-- The value loop of DictValidator.validate over the validators mapping
in insertion order: the first key whose (present) value the nested
validator rejects, with the stored nested message.  Keys absent from the
input are skipped. -/
def Validator.checkEntries :
    List (String × Validator) → List (String × PyVal) → Option (String × String)
  | [], _ => Option.none
  | (key, w) :: rest, entries =>
    match dictLookup entries key with
    | some v =>
      let r := Validator.validate w v
      if r.1 then Validator.checkEntries rest entries
      else some (key, r.2)
    | Option.none => Validator.checkEntries rest entries

end

/-! ## Post-state of a validate call

A validate call mutates the _error_message of the instance it is called
on and, through nested calls, of the nested instances it consults.  The
functions below return the whole updated instance tree.  They are
fuelled: fuel strictly exceeding the nesting depth of the validator tree
is enough (the fuel-exhausted branch is unreachable then, as proven by
the agreement lemmas below), and Validator.run supplies such fuel. -/

mutual

/-- Post-state semantics of validate: the returned boolean and the
instance tree after the call, at a given fuel. -/
def Validator.runAux : Nat → Validator → PyVal → Bool × Validator
  | 0, v, _ => (false, v)
  | Nat.succ n, v, data =>
    match v with
    | .NumericValidator mn mx an e =>
      let r := Validator.validate (.NumericValidator mn mx an e) data
      (r.1, .NumericValidator mn mx an r.2)
    | .StringValidator ml mx av an e =>
      let r := Validator.validate (.StringValidator ml mx av an e) data
      (r.1, .StringValidator ml mx av an r.2)
    | .DictValidator rk vs _e =>
      match data with
      | .dict entries =>
        match findMissingKey rk entries with
        | some k => (false, .DictValidator rk vs (missingKeyMsg k))
        | Option.none =>
          let r := Validator.runEntries n vs entries
          match r.2 with
          | some km => (false, .DictValidator rk r.1 (invalidValueMsg km.1 km.2))
          | Option.none => (true, .DictValidator rk r.1 "")
      | d => (false, .DictValidator rk vs (notDictMsg d))
    | .ListValidator iv mnl mxl _e =>
      match data with
      | .list xs =>
        match listLengthError mnl mxl xs.length with
        | some msg => (false, .ListValidator iv mnl mxl msg)
        | Option.none =>
          match iv with
          | some child =>
            let r := Validator.runItems n child xs 0
            match r.2 with
            | some im =>
              (false, .ListValidator (some r.1) mnl mxl (invalidItemMsg im.1 im.2))
            | Option.none => (true, .ListValidator (some r.1) mnl mxl "")
          | Option.none => (true, .ListValidator Option.none mnl mxl "")
      | d => (false, .ListValidator iv mnl mxl (notListMsg d))
termination_by n v d => (n, 0)

/-- Element loop of ListValidator.validate with state: threads the item
validator through the successive nested calls and stops at the first
rejected element, leaving later elements unexamined. -/
def Validator.runItems :
    Nat → Validator → List PyVal → Nat → Validator × Option (Nat × String)
  | _, child, [], _ => (child, Option.none)
  | n, child, x :: rest, i =>
    let r := Validator.runAux n child x
    if r.1 then Validator.runItems n r.2 rest (i + 1)
    else (r.2, some (i, r.2.get_error_message))
termination_by n child xs i => (n, xs.length + 1)

/-- Value loop of DictValidator.validate with state: threads each nested
validator of the mapping, stopping at the first rejected present value
and leaving the remaining nested validators untouched. -/
def Validator.runEntries :
    Nat → List (String × Validator) → List (String × PyVal) →
      List (String × Validator) × Option (String × String)
  | _, [], _ => ([], Option.none)
  | n, (key, w) :: rest, entries =>
    match dictLookup entries key with
    | some v =>
      let r := Validator.runAux n w v
      if r.1 then
        let rr := Validator.runEntries n rest entries
        ((key, r.2) :: rr.1, rr.2)
      else ((key, r.2) :: rest, some (key, r.2.get_error_message))
    | Option.none =>
      let rr := Validator.runEntries n rest entries
      ((key, w) :: rr.1, rr.2)
termination_by n vs entries => (n, vs.length + 1)

end

mutual

/-- Nesting depth of a validator tree (leaves have depth 0). -/
def Validator.depth : Validator → Nat
  | .NumericValidator _ _ _ _ => 0
  | .StringValidator _ _ _ _ _ => 0
  | .DictValidator _ vs _ => Validator.depthEntries vs + 1
  | .ListValidator iv _ _ _ =>
    (match iv with
     | some c => Validator.depth c
     | Option.none => 0) + 1

/-- Largest nesting depth among the nested validators of a mapping. -/
def Validator.depthEntries : List (String × Validator) → Nat
  | [] => 0
  | (_, w) :: rest => max (Validator.depth w) (Validator.depthEntries rest)

end

/-- The full effect of one validate(data) call on an instance tree: the
returned boolean and the mutated tree, with fuel exceeding the nesting
depth. -/
def Validator.run (v : Validator) (data : PyVal) : Bool × Validator :=
  Validator.runAux (v.depth + 1) v data

mutual

/-- The configuration view of an instance tree: every mutable last-error
field reset, all configuration fields kept. -/
def Validator.eraseErr : Validator → Validator
  | .NumericValidator mn mx an _ => .NumericValidator mn mx an ""
  | .StringValidator ml mx av an _ => .StringValidator ml mx av an ""
  | .DictValidator rk vs _ => .DictValidator rk (Validator.eraseErrEntries vs) ""
  | .ListValidator iv mnl mxl _ =>
    .ListValidator
      (match iv with
       | some c => some (Validator.eraseErr c)
       | Option.none => Option.none) mnl mxl ""

/-- Configuration view of a validators mapping. -/
def Validator.eraseErrEntries : List (String × Validator) → List (String × Validator)
  | [] => []
  | (k, w) :: rest => (k, Validator.eraseErr w) :: Validator.eraseErrEntries rest

end

/-! ## Calculator (calculator.py)

The Calculator class keeps a last_result cache that its arithmetic
methods overwrite on success; no claim concerns it, so divide and
square_root are modelled as the value each method raises or both stores
and returns. -/

/-- A raised Python exception: its class name and message.  Both
arithmetic error branches of calculator.py raise ValueError. -/
structure PyError where
  kind : String
  msg : String
deriving DecidableEq

/-- Calculator.divide(a, b): raises ValueError("Cannot divide by zero")
exactly on a zero divisor, otherwise returns the quotient. -/
def Calculator.divide (a b : ℚ) : Except PyError ℚ :=
  if b = 0 then Except.error ⟨"ValueError", "Cannot divide by zero"⟩
  else Except.ok (a / b)

/-- Calculator.square_root(num): raises ValueError on a negative
argument, otherwise returns num ** 0.5.  The Python power is binary
floating point; it is modelled as the exact real square root of the
exact rational argument. -/
noncomputable def Calculator.square_root (num : ℚ) : Except PyError ℝ :=
  if num < 0 then
    Except.error ⟨"ValueError", "Cannot calculate square root of negative number"⟩
  else Except.ok (Real.sqrt (num : ℝ))

/-! ## Helper lemmas: non-emptiness of stored failure messages -/

/-- A string append with a non-empty left part is non-empty. -/
theorem append_ne_empty_left (a b : String) (ha : a ≠ "") : a ++ b ≠ "" := by
  intro h
  have hl := congrArg String.length h
  rw [String.length_append] at hl
  simp only [String.length_empty, Nat.add_eq_zero] at hl
  exact ha (String.ext (by
    have := hl.1
    cases a with
    | mk data =>
      cases data with
      | nil => rfl
      | cons c cs => simp [String.length] at this))

/-- Non-emptiness of each stored failure message. -/
theorem noneMsg_ne : noneMsg ≠ "" := by decide

/-- Non-emptiness of the not-numeric message. -/
theorem notNumericMsg_ne (d : PyVal) : notNumericMsg d ≠ "" := by
  unfold notNumericMsg
  repeat apply append_ne_empty_left
  decide

/-- Non-emptiness of the below-minimum message. -/
theorem belowMinMsg_ne (a b : ℚ) : belowMinMsg a b ≠ "" := by
  unfold belowMinMsg
  repeat apply append_ne_empty_left
  decide

/-- Non-emptiness of the above-maximum message. -/
theorem aboveMaxMsg_ne (a b : ℚ) : aboveMaxMsg a b ≠ "" := by
  unfold aboveMaxMsg
  repeat apply append_ne_empty_left
  decide

/-- Non-emptiness of the not-a-string message. -/
theorem notStringMsg_ne (d : PyVal) : notStringMsg d ≠ "" := by
  unfold notStringMsg
  repeat apply append_ne_empty_left
  decide

/-- Non-emptiness of the string too-short message. -/
theorem strShortMsg_ne (n : Nat) (m : Int) : strShortMsg n m ≠ "" := by
  unfold strShortMsg
  repeat apply append_ne_empty_left
  decide

/-- Non-emptiness of the string too-long message. -/
theorem strLongMsg_ne (n : Nat) (m : Int) : strLongMsg n m ≠ "" := by
  unfold strLongMsg
  repeat apply append_ne_empty_left
  decide

/-- Non-emptiness of the not-allowed-value message. -/
theorem notAllowedMsg_ne (s : String) (vals : List String) : notAllowedMsg s vals ≠ "" := by
  unfold notAllowedMsg
  repeat apply append_ne_empty_left
  decide

/-- Non-emptiness of the not-a-dictionary message. -/
theorem notDictMsg_ne (d : PyVal) : notDictMsg d ≠ "" := by
  unfold notDictMsg
  repeat apply append_ne_empty_left
  decide

/-- Non-emptiness of the missing-key message. -/
theorem missingKeyMsg_ne (k : String) : missingKeyMsg k ≠ "" := by
  unfold missingKeyMsg
  repeat apply append_ne_empty_left
  decide

/-- Non-emptiness of the wrapped dict-value message. -/
theorem invalidValueMsg_ne (k msg : String) : invalidValueMsg k msg ≠ "" := by
  unfold invalidValueMsg
  repeat apply append_ne_empty_left
  decide

/-- Non-emptiness of the not-a-list message. -/
theorem notListMsg_ne (d : PyVal) : notListMsg d ≠ "" := by
  unfold notListMsg
  repeat apply append_ne_empty_left
  decide

/-- Non-emptiness of the list too-short message. -/
theorem listShortMsg_ne (n : Nat) (m : Int) : listShortMsg n m ≠ "" := by
  unfold listShortMsg
  repeat apply append_ne_empty_left
  decide

/-- Non-emptiness of the list too-long message. -/
theorem listLongMsg_ne (n : Nat) (m : Int) : listLongMsg n m ≠ "" := by
  unfold listLongMsg
  repeat apply append_ne_empty_left
  decide

/-- Non-emptiness of the wrapped list-item message. -/
theorem invalidItemMsg_ne (i : Nat) (msg : String) : invalidItemMsg i msg ≠ "" := by
  unfold invalidItemMsg
  repeat apply append_ne_empty_left
  decide

/-- Every message numericBoundsError can produce is non-empty. -/
theorem numericBoundsError_ne (mn mx : Option ℚ) (w : ℚ) (msg : String)
    (h : numericBoundsError mn mx w = some msg) : msg ≠ "" := by
  unfold numericBoundsError numericMaxError at h
  rcases mn with _ | m <;> rcases mx with _ | m2 <;> (repeat' split at h) <;>
    first
      | (rw [Option.some.injEq] at h; subst h;
         first
           | exact belowMinMsg_ne _ _
           | exact aboveMaxMsg_ne _ _)
      | simp_all

/-- Every message stringLengthError can produce is non-empty. -/
theorem stringLengthError_ne (ml : Int) (mxl : Option Int) (n : Nat) (msg : String)
    (h : stringLengthError ml mxl n = some msg) : msg ≠ "" := by
  unfold stringLengthError at h
  rcases mxl with _ | m <;> (repeat' split at h) <;>
    first
      | (rw [Option.some.injEq] at h; subst h;
         first
           | exact strShortMsg_ne _ _
           | exact strLongMsg_ne _ _)
      | simp_all

/-- Every message allowedValuesError can produce is non-empty. -/
theorem allowedValuesError_ne (av : Option (List String)) (s : String) (msg : String)
    (h : allowedValuesError av s = some msg) : msg ≠ "" := by
  unfold allowedValuesError at h
  rcases av with _ | vals <;> (repeat' split at h) <;>
    first
      | (rw [Option.some.injEq] at h; subst h; exact notAllowedMsg_ne _ _)
      | simp_all

/-- Every message listLengthError can produce is non-empty. -/
theorem listLengthError_ne (ml : Int) (mxl : Option Int) (n : Nat) (msg : String)
    (h : listLengthError ml mxl n = some msg) : msg ≠ "" := by
  unfold listLengthError at h
  rcases mxl with _ | m <;> (repeat' split at h) <;>
    first
      | (rw [Option.some.injEq] at h; subst h;
         first
           | exact listShortMsg_ne _ _
           | exact listLongMsg_ne _ _)
      | simp_all

/-! ## Claim C1: numeric bounds -/

/-- With both bounds configured, the bound checks pass exactly when the
coerced value lies in the closed interval. -/
theorem numericBoundsError_none_iff (a b v : ℚ) :
    numericBoundsError (some a) (some b) v = Option.none ↔ (a ≤ v ∧ v ≤ b) := by
  simp only [numericBoundsError, numericMaxError]
  split_ifs with h1 h2
  · constructor
    · intro hh; exact hh.elim
    · rintro ⟨ha, _⟩; exact absurd h1 (not_lt.mpr ha)
  · constructor
    · intro hh; exact hh.elim
    · rintro ⟨_, hb⟩; exact absurd h2 (not_lt.mpr hb)
  · constructor
    · intro _; exact ⟨not_lt.mp h1, not_lt.mp h2⟩
    · intro _; rfl

/-- NumericValidator with both bounds accepts a float input exactly when
it lies in the closed interval. -/
theorem validate_numeric_float (a b : ℚ) (an : Bool) (e : String) (v : ℚ) :
    ((Validator.NumericValidator (some a) (some b) an e).validate (.float v)).1 = true
      ↔ (a ≤ v ∧ v ≤ b) := by
  have hcore := numericBoundsError_none_iff a b v
  simp only [Validator.validate, numericCoerceResult, pyFloat]
  rcases hnb : numericBoundsError (some a) (some b) v with _ | msg
  · simp only [hnb, checkTail, true_iff]
    exact hcore.mp hnb
  · have hne : ¬ (a ≤ v ∧ v ≤ b) := by
      intro hab
      rw [hcore.mpr hab] at hnb
      exact Option.noConfusion hnb
    simp [hnb, hne, checkTail]

/-- NumericValidator with both bounds accepts an int input exactly when
its rational value lies in the closed interval. -/
theorem validate_numeric_int (a b : ℚ) (an : Bool) (e : String) (n : ℤ) :
    ((Validator.NumericValidator (some a) (some b) an e).validate (.int n)).1 = true
      ↔ (a ≤ (n : ℚ) ∧ (n : ℚ) ≤ b) := by
  have hcore := numericBoundsError_none_iff a b (n : ℚ)
  simp only [Validator.validate, numericCoerceResult, pyFloat]
  rcases hnb : numericBoundsError (some a) (some b) (n : ℚ) with _ | msg
  · simp only [hnb, checkTail, true_iff]
    exact hcore.mp hnb
  · have hne : ¬ (a ≤ (n : ℚ) ∧ (n : ℚ) ≤ b) := by
      intro hab
      rw [hcore.mpr hab] at hnb
      exact Option.noConfusion hnb
    simp [hnb, hne, checkTail]

/-- C1: for every NumericValidator configured with min_value=a and
max_value=b where a ≤ b, and every numeric input v (given as a float or
an int), validate(v) returns true if and only if a ≤ v ≤ b. -/
theorem spec_C1 (a b : ℚ) (an : Bool) (e : String) (hab : a ≤ b) (v : ℚ) :
    (((Validator.NumericValidator (some a) (some b) an e).validate (.float v)).1 = true
        ↔ (a ≤ v ∧ v ≤ b))
    ∧ (∀ n : ℤ,
        ((Validator.NumericValidator (some a) (some b) an e).validate (.int n)).1 = true
          ↔ (a ≤ (n : ℚ) ∧ (n : ℚ) ≤ b)) :=
  ⟨validate_numeric_float a b an e v, fun n => validate_numeric_int a b an e n⟩

/-- Witness for C1: the validator with bounds 0 and 10 accepts 5 and
rejects 11. -/
theorem spec_C1_witness :
    ((Validator.NumericValidator (some 0) (some 10) false "").validate (.float 5)).1 = true
    ∧ ((Validator.NumericValidator (some 0) (some 10) false "").validate (.int 11)).1 ≠ true :=
  ⟨((spec_C1 0 10 false "" (by norm_num) 5).1).mpr (by norm_num),
   fun hc => by
     have := ((spec_C1 0 10 false "" (by norm_num) 5).2 11).mp hc
     norm_num at this⟩

/-! ## Claim C10: list type mismatch -/

/-- C10: for every ListValidator and every input that is not an exact
list (tuples and the rest included), validate returns false with the
type-mismatch message naming the actual type, independently of the
configured lengths and item validator. -/
theorem spec_C10 (iv : Option Validator) (mnl : Int) (mxl : Option Int) (e : String)
    (d : PyVal) (h : d.isList = false) :
    (Validator.ListValidator iv mnl mxl e).validate d
      = (false, "Value must be list, got " ++ d.typeName) := by
  cases d <;> simp_all [Validator.validate, PyVal.isList, notListMsg, PyVal.typeName]

/-- Witness for C10: a tuple input is rejected with the message naming
the tuple type. -/
theorem spec_C10_witness :
    (Validator.ListValidator Option.none 0 Option.none "").validate (.tuple [.int 1])
      = (false, "Value must be list, got tuple") := by
  rw [spec_C10 Option.none 0 Option.none "" (.tuple [.int 1]) rfl]
  decide

/-! ## Claim C8: calculator error conditions -/

/-- C8: Calculator.divide raises ValueError with a descriptive message
exactly when the divisor is zero and otherwise returns the quotient;
Calculator.square_root raises ValueError with a descriptive message
exactly when the argument is negative and otherwise returns the square
root; the two errors share the single error kind ValueError. -/
theorem spec_C8 (a b num : ℚ) :
    (Calculator.divide a b
        = Except.error ⟨"ValueError", "Cannot divide by zero"⟩ ↔ b = 0)
    ∧ (Calculator.divide a b = Except.ok (a / b) ↔ ¬ b = 0)
    ∧ (Calculator.square_root num
        = Except.error ⟨"ValueError", "Cannot calculate square root of negative number"⟩
          ↔ num < 0)
    ∧ (Calculator.square_root num = Except.ok (Real.sqrt (num : ℝ)) ↔ ¬ num < 0)
    ∧ (∀ e1 e2 : PyError, Calculator.divide a b = Except.error e1 →
        Calculator.square_root num = Except.error e2 →
          e1.kind = "ValueError" ∧ e2.kind = "ValueError" ∧ e1.msg ≠ "" ∧ e2.msg ≠ "") := by
  unfold Calculator.divide Calculator.square_root
  by_cases hb : b = 0 <;> by_cases hn : num < 0 <;> simp [hb, hn]

/-! ## Claim C2: list element short-circuit -/

/-- The element loop reports the first rejected element: with a passing
prefix and a failing element next, it yields that element's index and
the message the nested call stores, whatever follows. -/
theorem checkItems_first_fail (child : Validator) (pre : List PyVal) (x : PyVal)
    (post : List PyVal) (i : Nat)
    (hpre : ∀ y ∈ pre, (child.validate y).1 = true)
    (hx : (child.validate x).1 = false) :
    Validator.checkItems child (pre ++ x :: post) i
      = some (i + pre.length, (child.validate x).2) := by
  induction pre generalizing i with
  | nil =>
    simp [Validator.checkItems, hx]
  | cons y rest ih =>
    have hy := hpre y (List.mem_cons_self _ _)
    simp only [List.cons_append, Validator.checkItems, hy, if_true]
    rw [ih (i + 1) (fun z hz => hpre z (List.mem_cons_of_mem _ hz))]
    simp only [Option.some.injEq, Prod.mk.injEq, List.length_cons]
    exact ⟨by omega, trivial⟩

/-- The list length checks pass when the length is within the configured
bounds. -/
theorem listLengthError_none (mnl : Int) (mxl : Option Int) (n : Nat)
    (hmin : mnl ≤ (n : Int)) (hmax : ∀ m, mxl = some m → (n : Int) ≤ m) :
    listLengthError mnl mxl n = Option.none := by
  rcases mxl with _ | m
  · unfold listLengthError
    rw [if_neg (by omega)]
  · have hm := hmax m rfl
    unfold listLengthError
    rw [if_neg (by omega)]
    show (if ((n : Int) > m) then some (listLongMsg n m) else Option.none) = Option.none
    rw [if_neg (by omega)]

/-- C2: for every ListValidator with an item validator, on a list whose
length checks pass, whose first pre.length elements pass and whose next
element fails, validate returns false with the message identifying that
element's 0-based index and the nested validator's stored error message;
and the result does not depend on the elements after the failing one. -/
theorem spec_C2 (child : Validator) (mnl : Int) (mxl : Option Int) (e : String)
    (pre : List PyVal) (x : PyVal) (post : List PyVal)
    (hpre : ∀ y ∈ pre, (child.validate y).1 = true)
    (hx : (child.validate x).1 = false)
    (hmin : mnl ≤ ((pre ++ x :: post).length : Int))
    (hmax : ∀ m, mxl = some m → ((pre ++ x :: post).length : Int) ≤ m) :
    ((Validator.ListValidator (some child) mnl mxl e).validate (.list (pre ++ x :: post))
        = (false, invalidItemMsg pre.length (child.validate x).2))
    ∧ (∀ post2 : List PyVal, post2.length = post.length →
        (Validator.ListValidator (some child) mnl mxl e).validate (.list (pre ++ x :: post2))
          = (Validator.ListValidator (some child) mnl mxl e).validate
              (.list (pre ++ x :: post))) := by
  have hgen : ∀ post2 : List PyVal, post2.length = post.length →
      (Validator.ListValidator (some child) mnl mxl e).validate (.list (pre ++ x :: post2))
        = (false, invalidItemMsg pre.length (child.validate x).2) := by
    intro post2 hp2
    have hleq : (pre ++ x :: post2).length = (pre ++ x :: post).length := by
      simp [hp2]
    have hll : listLengthError mnl mxl (pre ++ x :: post2).length = Option.none := by
      apply listLengthError_none
      · rw [hleq]; exact hmin
      · intro m hm; rw [hleq]; exact hmax m hm
    simp only [Validator.validate, hll]
    rw [checkItems_first_fail child pre x post2 0 hpre hx]
    simp [listItemsTail]
  exact ⟨hgen post rfl, fun post2 h2 => (hgen post2 h2).trans (hgen post rfl).symm⟩

/-- Witness for C2: a minimum-0 numeric item validator on the 5-element
list [1, 2, -1, -5, -7] rejects at index 2, although indices 3 and 4
would also fail. -/
theorem spec_C2_witness :
    (Validator.ListValidator (some (Validator.NumericValidator (some 0) Option.none false ""))
        0 Option.none "").validate
        (.list [.int 1, .int 2, .int (-1), .int (-5), .int (-7)])
      = (false, invalidItemMsg 2
          ((Validator.NumericValidator (some 0) Option.none false "").validate (.int (-1))).2) :=
  (spec_C2 (Validator.NumericValidator (some 0) Option.none false "") 0 Option.none ""
    [.int 1, .int 2] (.int (-1)) [.int (-5), .int (-7)]
    (by
      intro y hy
      simp only [List.mem_cons, List.mem_singleton] at hy
      rcases hy with rfl | hy
      · simp only [Validator.validate]; decide
      · rcases hy with rfl | hy
        · simp only [Validator.validate]; decide
        · simp at hy)
    (by simp only [Validator.validate]; decide)
    (by decide)
    (by intro m hm; simp at hm)).1

/-! ## Claim C5: dict required-key short-circuit -/

/-- The required-keys pass reports the first missing key: with a present
prefix and a missing key next, it yields that key, whatever follows. -/
theorem findMissingKey_first (pre : List String) (k : String) (post : List String)
    (entries : List (String × PyVal))
    (hpre : ∀ k2 ∈ pre, dictContains entries k2 = true)
    (hk : dictContains entries k = false) :
    findMissingKey (pre ++ k :: post) entries = some k := by
  induction pre with
  | nil => simp [findMissingKey, hk]
  | cons a rest ih =>
    have ha := hpre a (List.mem_cons_self _ _)
    simp only [List.cons_append, findMissingKey, ha, if_true]
    exact ih (fun k2 h2 => hpre k2 (List.mem_cons_of_mem _ h2))

/-- C5: for every DictValidator on a dict input, the required keys are
checked in the declared order: at the first key not present, validate
returns false with the message naming that key, independently of the
later required keys and of the configured nested validators. -/
theorem spec_C5 (pre : List String) (k : String) (post : List String)
    (vs : List (String × Validator)) (e : String) (entries : List (String × PyVal))
    (hpre : ∀ k2 ∈ pre, dictContains entries k2 = true)
    (hk : dictContains entries k = false) :
    ((Validator.DictValidator (pre ++ k :: post) vs e).validate (.dict entries)
        = (false, missingKeyMsg k))
    ∧ (∀ (post2 : List String) (vs2 : List (String × Validator)),
        (Validator.DictValidator (pre ++ k :: post2) vs2 e).validate (.dict entries)
          = (false, missingKeyMsg k)) := by
  have hgen : ∀ (post2 : List String) (vs2 : List (String × Validator)),
      (Validator.DictValidator (pre ++ k :: post2) vs2 e).validate (.dict entries)
        = (false, missingKeyMsg k) := by
    intro post2 vs2
    simp only [Validator.validate, findMissingKey_first pre k post2 entries hpre hk]
  exact ⟨hgen post vs, hgen⟩

/-- Witness for C5: with required keys ["a", "b"] and an empty dict
missing both, the failure names "a", the first in declared order. -/
theorem spec_C5_witness :
    (Validator.DictValidator ["a", "b"] [] "").validate (.dict [])
      = (false, missingKeyMsg "a") :=
  (spec_C5 [] "a" ["b"] [] "" [] (by intro k2 h2; simp at h2) (by decide)).1

/-! ## Claim C6: dict acceptance with extra keys -/

/-- The required-keys pass succeeds when every required key is present. -/
theorem findMissingKey_none (rk : List String) (entries : List (String × PyVal))
    (h : ∀ k ∈ rk, dictContains entries k = true) :
    findMissingKey rk entries = Option.none := by
  induction rk with
  | nil => rfl
  | cons a rest ih =>
    have ha := h a (List.mem_cons_self _ _)
    simp only [findMissingKey, ha, if_true]
    exact ih (fun k2 h2 => h k2 (List.mem_cons_of_mem _ h2))

/-- The value loop succeeds when every key present in both the input and
the validators mapping carries a value its nested validator accepts. -/
theorem checkEntries_none (vs : List (String × Validator)) (entries : List (String × PyVal))
    (h : ∀ k w, (k, w) ∈ vs → ∀ val, dictLookup entries k = some val →
      (Validator.validate w val).1 = true) :
    Validator.checkEntries vs entries = Option.none := by
  induction vs with
  | nil => simp [Validator.checkEntries]
  | cons p rest ih =>
    rcases p with ⟨key, w⟩
    have ihr := ih (fun k2 w2 h2 => h k2 w2 (List.mem_cons_of_mem _ h2))
    rcases hl : dictLookup entries key with _ | val
    · simp only [Validator.checkEntries, hl]
      exact ihr
    · have hv := h key w (List.mem_cons_self _ _) val hl
      simp only [Validator.checkEntries, hl, hv, if_true]
      exact ihr

/-- C6: for every DictValidator on a dict input that contains every
required key and whose values pass the nested validator for every key
present in both the input and the validators mapping, validate returns
true, whatever extra keys the input carries. -/
theorem spec_C6 (rk : List String) (vs : List (String × Validator)) (e : String)
    (entries : List (String × PyVal))
    (hreq : ∀ k ∈ rk, dictContains entries k = true)
    (hvals : ∀ k w, (k, w) ∈ vs → ∀ val, dictLookup entries k = some val →
      (Validator.validate w val).1 = true) :
    ((Validator.DictValidator rk vs e).validate (.dict entries)).1 = true := by
  simp only [Validator.validate, findMissingKey_none rk entries hreq,
    checkEntries_none vs entries hvals, dictTail]

/-- Witness for C6: a schema requiring "name" with a numeric validator
for it accepts a dict carrying "name" and an extra unrelated key. -/
theorem spec_C6_witness :
    ((Validator.DictValidator ["name"]
        [("name", Validator.NumericValidator Option.none Option.none false "")] "").validate
        (.dict [("name", .int 3), ("extra", .str "x")])).1 = true :=
  spec_C6 ["name"] [("name", Validator.NumericValidator Option.none Option.none false "")] ""
    [("name", .int 3), ("extra", .str "x")]
    (by intro k hk; simp only [List.mem_singleton] at hk; subst hk; decide)
    (by
      intro k w hw val hval
      simp only [List.mem_singleton, Prod.mk.injEq] at hw
      rcases hw with ⟨rfl, rfl⟩
      have hv : dictLookup [("name", PyVal.int 3), ("extra", PyVal.str "x")] "name"
          = some (PyVal.int 3) := rfl
      rw [hv, Option.some.injEq] at hval
      subst hval
      simp only [Validator.validate]
      decide)

/-! ## Outcome and stored message agree (groundwork for C9) -/

/-- The relation claim C9 asserts for a validate outcome: the returned
boolean is false exactly when the stored message is non-empty. -/
def MsgOk (r : Bool × String) : Prop := r.1 = false ↔ r.2 ≠ ""

/-- A passing outcome stores the empty message. -/
theorem msgOk_true : MsgOk (true, "") := by simp [MsgOk]

/-- A failing outcome stores a non-empty message. -/
theorem msgOk_false (m : String) (hm : m ≠ "") : MsgOk (false, m) := by simp [MsgOk, hm]

/-- A final optional check whose possible messages are non-empty yields
an outcome satisfying the relation. -/
theorem checkTail_msgOk (r : Option String) (hne : ∀ msg, r = some msg → msg ≠ "") :
    MsgOk (checkTail r) := by
  rcases r with _ | msg
  · exact msgOk_true
  · exact msgOk_false _ (hne msg rfl)

/-- The numeric coercion-and-bounds outcome satisfies the relation. -/
theorem numericCoerceResult_msgOk (mn mx : Option ℚ) (d : PyVal) :
    MsgOk (numericCoerceResult mn mx d) := by
  unfold numericCoerceResult
  rcases hf : pyFloat d with _ | w
  · exact msgOk_false _ (notNumericMsg_ne d)
  · exact checkTail_msgOk _ (fun msg hm => numericBoundsError_ne _ _ _ _ hm)

/-- The string checks outcome satisfies the relation. -/
theorem stringChecksResult_msgOk (ml : Int) (mxl : Option Int) (av : Option (List String))
    (s : String) : MsgOk (stringChecksResult ml mxl av s) := by
  unfold stringChecksResult
  rcases hl : stringLengthError ml mxl s.length with _ | msg
  · exact checkTail_msgOk _ (fun msg2 hm => allowedValuesError_ne _ _ _ hm)
  · exact msgOk_false _ (stringLengthError_ne _ _ _ _ hl)

/-- The dict-loop outcome satisfies the relation. -/
theorem dictTail_msgOk (r : Option (String × String)) : MsgOk (dictTail r) := by
  rcases r with _ | km
  · exact msgOk_true
  · exact msgOk_false _ (invalidValueMsg_ne _ _)

/-- The list-loop outcome satisfies the relation. -/
theorem listItemsTail_msgOk (r : Option (Nat × String)) : MsgOk (listItemsTail r) := by
  rcases r with _ | im
  · exact msgOk_true
  · exact msgOk_false _ (invalidItemMsg_ne _ _)

/-- Every validate outcome satisfies the relation: success stores the
empty message, every failure branch stores a non-empty one. -/
theorem validate_msgOk (v : Validator) (d : PyVal) : MsgOk (v.validate d) := by
  cases v with
  | NumericValidator mn mx an e =>
    cases d with
    | none => cases an <;> simp [Validator.validate, MsgOk, noneMsg_ne]
    | int n => simp only [Validator.validate]; exact numericCoerceResult_msgOk mn mx _
    | float q => simp only [Validator.validate]; exact numericCoerceResult_msgOk mn mx _
    | bool b => simp only [Validator.validate]; exact numericCoerceResult_msgOk mn mx _
    | str s => simp only [Validator.validate]; exact numericCoerceResult_msgOk mn mx _
    | list xs => simp only [Validator.validate]; exact numericCoerceResult_msgOk mn mx _
    | tuple xs => simp only [Validator.validate]; exact numericCoerceResult_msgOk mn mx _
    | dict entries => simp only [Validator.validate]; exact numericCoerceResult_msgOk mn mx _
  | StringValidator ml mxl av an e =>
    cases d with
    | none => cases an <;> simp [Validator.validate, MsgOk, noneMsg_ne]
    | str s => simp only [Validator.validate]; exact stringChecksResult_msgOk ml mxl av s
    | int n => simp only [Validator.validate]; exact msgOk_false _ (notStringMsg_ne _)
    | float q => simp only [Validator.validate]; exact msgOk_false _ (notStringMsg_ne _)
    | bool b => simp only [Validator.validate]; exact msgOk_false _ (notStringMsg_ne _)
    | list xs => simp only [Validator.validate]; exact msgOk_false _ (notStringMsg_ne _)
    | tuple xs => simp only [Validator.validate]; exact msgOk_false _ (notStringMsg_ne _)
    | dict entries => simp only [Validator.validate]; exact msgOk_false _ (notStringMsg_ne _)
  | DictValidator rk vs e =>
    cases d with
    | dict entries =>
      simp only [Validator.validate]
      rcases hm : findMissingKey rk entries with _ | k
      · exact dictTail_msgOk _
      · exact msgOk_false _ (missingKeyMsg_ne k)
    | none => simp only [Validator.validate]; exact msgOk_false _ (notDictMsg_ne _)
    | int n => simp only [Validator.validate]; exact msgOk_false _ (notDictMsg_ne _)
    | float q => simp only [Validator.validate]; exact msgOk_false _ (notDictMsg_ne _)
    | bool b => simp only [Validator.validate]; exact msgOk_false _ (notDictMsg_ne _)
    | str s => simp only [Validator.validate]; exact msgOk_false _ (notDictMsg_ne _)
    | list xs => simp only [Validator.validate]; exact msgOk_false _ (notDictMsg_ne _)
    | tuple xs => simp only [Validator.validate]; exact msgOk_false _ (notDictMsg_ne _)
  | ListValidator iv mnl mxl e =>
    cases d with
    | list xs =>
      rcases iv with _ | child <;>
        simp only [Validator.validate] <;>
        rcases hl : listLengthError mnl mxl xs.length with _ | msg
      · exact msgOk_true
      · exact msgOk_false _ (listLengthError_ne _ _ _ _ hl)
      · exact listItemsTail_msgOk _
      · exact msgOk_false _ (listLengthError_ne _ _ _ _ hl)
    | none => simp only [Validator.validate]; exact msgOk_false _ (notListMsg_ne _)
    | int n => simp only [Validator.validate]; exact msgOk_false _ (notListMsg_ne _)
    | float q => simp only [Validator.validate]; exact msgOk_false _ (notListMsg_ne _)
    | bool b => simp only [Validator.validate]; exact msgOk_false _ (notListMsg_ne _)
    | str s => simp only [Validator.validate]; exact msgOk_false _ (notListMsg_ne _)
    | tuple xs => simp only [Validator.validate]; exact msgOk_false _ (notListMsg_ne _)
    | dict entries => simp only [Validator.validate]; exact msgOk_false _ (notListMsg_ne _)

/-! ## The decision functions never read the stored error fields -/

/-- validate and its loops depend only on the configuration: erasing the
stored error fields of the validator tree changes no outcome. -/
theorem validate_eraseErr_all (N : Nat) :
    (∀ v : Validator, sizeOf v ≤ N → ∀ d,
      (Validator.eraseErr v).validate d = v.validate d)
    ∧ (∀ child : Validator, sizeOf child ≤ N → ∀ xs i,
      Validator.checkItems (Validator.eraseErr child) xs i = Validator.checkItems child xs i)
    ∧ (∀ vs : List (String × Validator), sizeOf vs ≤ N → ∀ entries,
      Validator.checkEntries (Validator.eraseErrEntries vs) entries
        = Validator.checkEntries vs entries) := by
  induction N using Nat.strong_induction_on with
  | _ N IH =>
    have p1 : ∀ v : Validator, sizeOf v ≤ N → ∀ d,
        (Validator.eraseErr v).validate d = v.validate d := by
      intro v hv d
      cases v with
      | NumericValidator mn mx an e =>
        cases d <;> simp [Validator.eraseErr, Validator.validate]
      | StringValidator ml mxl av an e =>
        cases d <;> simp [Validator.eraseErr, Validator.validate]
      | DictValidator rk vs e =>
        have hvs : sizeOf vs < N := lt_of_lt_of_le (by simp; try omega) hv
        have hk := (IH (sizeOf vs) hvs).2.2 vs le_rfl
        cases d <;> simp [Validator.eraseErr, Validator.validate, hk]
      | ListValidator iv mnl mxl e =>
        rcases iv with _ | child
        · cases d <;> simp [Validator.eraseErr, Validator.validate]
        · have hchild : sizeOf child < N := lt_of_lt_of_le (by simp; try omega) hv
          have hk := (IH (sizeOf child) hchild).2.1 child le_rfl
          cases d <;> simp [Validator.eraseErr, Validator.validate, hk]
    have p2 : ∀ child : Validator, sizeOf child ≤ N → ∀ xs i,
        Validator.checkItems (Validator.eraseErr child) xs i
          = Validator.checkItems child xs i := by
      intro child hc xs
      induction xs with
      | nil => intro i; simp [Validator.checkItems]
      | cons x rest ih =>
        intro i
        have hval := p1 child hc x
        simp only [Validator.checkItems, hval]
        split
        · exact ih (i + 1)
        · rfl
    have p3 : ∀ vs : List (String × Validator), sizeOf vs ≤ N → ∀ entries,
        Validator.checkEntries (Validator.eraseErrEntries vs) entries
          = Validator.checkEntries vs entries := by
      intro vs hvs entries
      induction vs with
      | nil => simp [Validator.eraseErrEntries, Validator.checkEntries]
      | cons p rest ih =>
        rcases p with ⟨key, w⟩
        have hw : sizeOf w ≤ N :=
          le_of_lt (lt_of_lt_of_le (by simp; try omega) hvs)
        have hrest : sizeOf rest ≤ N :=
          le_of_lt (lt_of_lt_of_le (by simp; try omega) hvs)
        have hval := p1 w hw
        have ihr := ih hrest
        rcases hl : dictLookup entries key with _ | val <;>
          simp only [Validator.eraseErrEntries, Validator.checkEntries, hval, hl, ihr]
    exact ⟨p1, p2, p3⟩

/-- Erasing the error fields does not change a validate outcome. -/
theorem validate_eraseErr (v : Validator) (d : PyVal) :
    (Validator.eraseErr v).validate d = v.validate d :=
  (validate_eraseErr_all (sizeOf v)).1 v le_rfl d

/-- Two validators with the same configuration decide alike. -/
theorem validate_congr (v w : Validator)
    (h : Validator.eraseErr v = Validator.eraseErr w) (d : PyVal) :
    v.validate d = w.validate d := by
  rw [← validate_eraseErr v d, h, validate_eraseErr w d]

/-- Two item validators with the same configuration run the element loop
alike. -/
theorem checkItems_congr (v w : Validator)
    (h : Validator.eraseErr v = Validator.eraseErr w) (xs : List PyVal) (i : Nat) :
    Validator.checkItems v xs i = Validator.checkItems w xs i := by
  rw [← (validate_eraseErr_all (sizeOf v)).2.1 v le_rfl xs i, h,
    (validate_eraseErr_all (sizeOf w)).2.1 w le_rfl xs i]

/-- Erasing the error fields does not change the nesting depth. -/
theorem depth_eraseErr_all (N : Nat) :
    (∀ v : Validator, sizeOf v ≤ N →
      Validator.depth (Validator.eraseErr v) = Validator.depth v)
    ∧ (∀ vs : List (String × Validator), sizeOf vs ≤ N →
      Validator.depthEntries (Validator.eraseErrEntries vs) = Validator.depthEntries vs) := by
  induction N using Nat.strong_induction_on with
  | _ N IH =>
    have p1 : ∀ v : Validator, sizeOf v ≤ N →
        Validator.depth (Validator.eraseErr v) = Validator.depth v := by
      intro v hv
      cases v with
      | NumericValidator mn mx an e => simp [Validator.eraseErr, Validator.depth]
      | StringValidator ml mxl av an e => simp [Validator.eraseErr, Validator.depth]
      | DictValidator rk vs e =>
        have hvs : sizeOf vs < N := lt_of_lt_of_le (by simp; try omega) hv
        have hk := (IH (sizeOf vs) hvs).2 vs le_rfl
        simp [Validator.eraseErr, Validator.depth, hk]
      | ListValidator iv mnl mxl e =>
        rcases iv with _ | child
        · simp [Validator.eraseErr, Validator.depth]
        · have hchild : sizeOf child < N := lt_of_lt_of_le (by simp; try omega) hv
          have hk := (IH (sizeOf child) hchild).1 child le_rfl
          simp [Validator.eraseErr, Validator.depth, hk]
    have p2 : ∀ vs : List (String × Validator), sizeOf vs ≤ N →
        Validator.depthEntries (Validator.eraseErrEntries vs) = Validator.depthEntries vs := by
      intro vs hvs
      induction vs with
      | nil => simp [Validator.eraseErrEntries, Validator.depthEntries]
      | cons p rest ih =>
        rcases p with ⟨key, w⟩
        have hw : sizeOf w ≤ N :=
          le_of_lt (lt_of_lt_of_le (by simp; try omega) hvs)
        have hrest : sizeOf rest ≤ N :=
          le_of_lt (lt_of_lt_of_le (by simp; try omega) hvs)
        simp [Validator.eraseErrEntries, Validator.depthEntries, p1 w hw, ih hrest]
    exact ⟨p1, p2⟩

/-- Erasing the error fields does not change the nesting depth. -/
theorem depth_eraseErr (v : Validator) :
    Validator.depth (Validator.eraseErr v) = Validator.depth v :=
  (depth_eraseErr_all (sizeOf v)).1 v le_rfl

/-! ## Frame property of the post-state: only error fields change -/

/-- At any fuel, a run changes only error fields: the configuration view
of the post-state equals that of the pre-state, for the validator run,
the threaded item validator, and the threaded validators mapping. -/
theorem runAux_frame (n : Nat) :
    (∀ v d, Validator.eraseErr (Validator.runAux n v d).2 = Validator.eraseErr v)
    ∧ (∀ child xs i,
      Validator.eraseErr (Validator.runItems n child xs i).1 = Validator.eraseErr child)
    ∧ (∀ vs entries,
      Validator.eraseErrEntries (Validator.runEntries n vs entries).1
        = Validator.eraseErrEntries vs) := by
  induction n with
  | zero =>
    refine ⟨?_, ?_, ?_⟩
    · intro v d; simp [Validator.runAux]
    · intro child xs i
      cases xs <;> simp [Validator.runItems, Validator.runAux]
    · intro vs entries
      induction vs with
      | nil => simp [Validator.runEntries]
      | cons p rest ih =>
        rcases p with ⟨key, w⟩
        rcases hl : dictLookup entries key with _ | val <;>
          simp [Validator.runEntries, Validator.runAux, hl,
            Validator.eraseErrEntries, ih]
  | succ n IH =>
    obtain ⟨A, I, E⟩ := IH
    have A2 : ∀ v d,
        Validator.eraseErr (Validator.runAux (n + 1) v d).2 = Validator.eraseErr v := by
      intro v d
      cases v with
      | NumericValidator mn mx an e => simp [Validator.runAux, Validator.eraseErr]
      | StringValidator ml mxl av an e => simp [Validator.runAux, Validator.eraseErr]
      | DictValidator rk vs e =>
        cases d with
        | dict entries =>
          simp only [Validator.runAux]
          rcases hm : findMissingKey rk entries with _ | k
          · have hE := E vs entries
            rcases hr : (Validator.runEntries n vs entries).2 with _ | km <;>
              simp [Validator.eraseErr, hr, hE]
          · simp [Validator.eraseErr]
        | none => simp [Validator.runAux, Validator.eraseErr]
        | int m => simp [Validator.runAux, Validator.eraseErr]
        | float q => simp [Validator.runAux, Validator.eraseErr]
        | bool b => simp [Validator.runAux, Validator.eraseErr]
        | str s => simp [Validator.runAux, Validator.eraseErr]
        | list xs => simp [Validator.runAux, Validator.eraseErr]
        | tuple xs => simp [Validator.runAux, Validator.eraseErr]
      | ListValidator iv mnl mxl e =>
        rcases iv with _ | child
        · cases d with
          | list xs =>
            rcases hl : listLengthError mnl mxl xs.length with _ | msg <;>
              simp [Validator.runAux, Validator.eraseErr, hl]
          | none => simp [Validator.runAux, Validator.eraseErr]
          | int m => simp [Validator.runAux, Validator.eraseErr]
          | float q => simp [Validator.runAux, Validator.eraseErr]
          | bool b => simp [Validator.runAux, Validator.eraseErr]
          | str s => simp [Validator.runAux, Validator.eraseErr]
          | tuple xs => simp [Validator.runAux, Validator.eraseErr]
          | dict entries => simp [Validator.runAux, Validator.eraseErr]
        · cases d with
          | list xs =>
            simp only [Validator.runAux]
            rcases hl : listLengthError mnl mxl xs.length with _ | msg
            · have hI := I child xs 0
              rcases hr : (Validator.runItems n child xs 0).2 with _ | im <;>
                simp [Validator.eraseErr, hr, hI, hl]
            · simp [Validator.eraseErr, hl]
          | none => simp [Validator.runAux, Validator.eraseErr]
          | int m => simp [Validator.runAux, Validator.eraseErr]
          | float q => simp [Validator.runAux, Validator.eraseErr]
          | bool b => simp [Validator.runAux, Validator.eraseErr]
          | str s => simp [Validator.runAux, Validator.eraseErr]
          | tuple xs => simp [Validator.runAux, Validator.eraseErr]
          | dict entries => simp [Validator.runAux, Validator.eraseErr]
    have I2 : ∀ child xs i,
        Validator.eraseErr (Validator.runItems (n + 1) child xs i).1
          = Validator.eraseErr child := by
      intro child xs
      induction xs generalizing child with
      | nil => intro i; simp [Validator.runItems]
      | cons x rest ih =>
        intro i
        simp only [Validator.runItems]
        split
        · exact ((ih _) (i + 1)).trans (A2 child x)
        · exact A2 child x
    have E2 : ∀ vs entries,
        Validator.eraseErrEntries (Validator.runEntries (n + 1) vs entries).1
          = Validator.eraseErrEntries vs := by
      intro vs entries
      induction vs with
      | nil => simp [Validator.runEntries]
      | cons p rest ih =>
        rcases p with ⟨key, w⟩
        rcases hl : dictLookup entries key with _ | val
        · simp [Validator.runEntries, hl, Validator.eraseErrEntries, ih]
        · simp only [Validator.runEntries, hl]
          split
          · simp [Validator.eraseErrEntries, ih, A2 w val]
          · simp [Validator.eraseErrEntries, A2 w val]
    exact ⟨A2, I2, E2⟩

/-! ## Agreement of the post-state semantics with the decision function -/

/-- With fuel exceeding the nesting depth, a run returns the boolean of
the decision function and stores exactly its message in the instance the
call was made on; the loops agree likewise. -/
theorem runAux_agree (n : Nat) :
    (∀ v d, Validator.depth v < n →
      (Validator.runAux n v d).1 = (v.validate d).1
      ∧ (Validator.runAux n v d).2.get_error_message = (v.validate d).2)
    ∧ (∀ child xs i, Validator.depth child < n →
      (Validator.runItems n child xs i).2 = Validator.checkItems child xs i)
    ∧ (∀ vs entries, Validator.depthEntries vs < n →
      (Validator.runEntries n vs entries).2 = Validator.checkEntries vs entries) := by
  induction n with
  | zero =>
    refine ⟨?_, ?_, ?_⟩
    · intro v d h; omega
    · intro child xs i h; omega
    · intro vs entries h; omega
  | succ n IH =>
    obtain ⟨A, I, E⟩ := IH
    have A2 : ∀ v d, Validator.depth v < n + 1 →
        (Validator.runAux (n + 1) v d).1 = (v.validate d).1
        ∧ (Validator.runAux (n + 1) v d).2.get_error_message = (v.validate d).2 := by
      intro v d hd
      cases v with
      | NumericValidator mn mx an e =>
        constructor
        · simp [Validator.runAux]
        · simp [Validator.runAux, Validator.get_error_message]
      | StringValidator ml mxl av an e =>
        constructor
        · simp [Validator.runAux]
        · simp [Validator.runAux, Validator.get_error_message]
      | DictValidator rk vs e =>
        have hdE : Validator.depthEntries vs < n := by
          simp [Validator.depth] at hd; omega
        cases d with
        | dict entries =>
          simp only [Validator.runAux, Validator.validate]
          rcases hm : findMissingKey rk entries with _ | k
          · have hE := E vs entries hdE
            rcases hr : (Validator.runEntries n vs entries).2 with _ | km
            · have hc : Validator.checkEntries vs entries = Option.none := by
                rw [← hE]; exact hr
              simp [hm, hr, hc, dictTail, Validator.get_error_message]
            · have hc : Validator.checkEntries vs entries = some km := by
                rw [← hE]; exact hr
              simp [hm, hr, hc, dictTail, Validator.get_error_message]
          · simp [hm, Validator.get_error_message]
        | none =>
          constructor <;>
            simp [Validator.runAux, Validator.validate, Validator.get_error_message]
        | int m =>
          constructor <;>
            simp [Validator.runAux, Validator.validate, Validator.get_error_message]
        | float q =>
          constructor <;>
            simp [Validator.runAux, Validator.validate, Validator.get_error_message]
        | bool b =>
          constructor <;>
            simp [Validator.runAux, Validator.validate, Validator.get_error_message]
        | str s =>
          constructor <;>
            simp [Validator.runAux, Validator.validate, Validator.get_error_message]
        | list xs =>
          constructor <;>
            simp [Validator.runAux, Validator.validate, Validator.get_error_message]
        | tuple xs =>
          constructor <;>
            simp [Validator.runAux, Validator.validate, Validator.get_error_message]
      | ListValidator iv mnl mxl e =>
        rcases iv with _ | child
        · cases d with
          | list xs =>
            rcases hl : listLengthError mnl mxl xs.length with _ | msg <;>
              simp [Validator.runAux, Validator.validate, hl, Validator.get_error_message]
          | none =>
            constructor <;>
              simp [Validator.runAux, Validator.validate, Validator.get_error_message]
          | int m =>
            constructor <;>
              simp [Validator.runAux, Validator.validate, Validator.get_error_message]
          | float q =>
            constructor <;>
              simp [Validator.runAux, Validator.validate, Validator.get_error_message]
          | bool b =>
            constructor <;>
              simp [Validator.runAux, Validator.validate, Validator.get_error_message]
          | str s =>
            constructor <;>
              simp [Validator.runAux, Validator.validate, Validator.get_error_message]
          | tuple xs =>
            constructor <;>
              simp [Validator.runAux, Validator.validate, Validator.get_error_message]
          | dict entries =>
            constructor <;>
              simp [Validator.runAux, Validator.validate, Validator.get_error_message]
        · have hdc : Validator.depth child < n := by
            simp [Validator.depth] at hd; omega
          cases d with
          | list xs =>
            simp only [Validator.runAux, Validator.validate]
            rcases hl : listLengthError mnl mxl xs.length with _ | msg
            · have hI := I child xs 0 hdc
              rcases hr : (Validator.runItems n child xs 0).2 with _ | im
              · have hc : Validator.checkItems child xs 0 = Option.none := by
                  rw [← hI]; exact hr
                simp [hl, hr, hc, listItemsTail, Validator.get_error_message]
              · have hc : Validator.checkItems child xs 0 = some im := by
                  rw [← hI]; exact hr
                simp [hl, hr, hc, listItemsTail, Validator.get_error_message]
            · simp [hl, Validator.get_error_message]
          | none =>
            constructor <;>
              simp [Validator.runAux, Validator.validate, Validator.get_error_message]
          | int m =>
            constructor <;>
              simp [Validator.runAux, Validator.validate, Validator.get_error_message]
          | float q =>
            constructor <;>
              simp [Validator.runAux, Validator.validate, Validator.get_error_message]
          | bool b =>
            constructor <;>
              simp [Validator.runAux, Validator.validate, Validator.get_error_message]
          | str s =>
            constructor <;>
              simp [Validator.runAux, Validator.validate, Validator.get_error_message]
          | tuple xs =>
            constructor <;>
              simp [Validator.runAux, Validator.validate, Validator.get_error_message]
          | dict entries =>
            constructor <;>
              simp [Validator.runAux, Validator.validate, Validator.get_error_message]
    have I2 : ∀ child xs i, Validator.depth child < n + 1 →
        (Validator.runItems (n + 1) child xs i).2 = Validator.checkItems child xs i := by
      intro child xs
      induction xs generalizing child with
      | nil => intro i hd; simp [Validator.runItems, Validator.checkItems]
      | cons x rest ih =>
        intro i hd
        have hA := A2 child x hd
        have hframe : Validator.eraseErr (Validator.runAux (n + 1) child x).2
            = Validator.eraseErr child := (runAux_frame (n + 1)).1 child x
        have hdepth : Validator.depth (Validator.runAux (n + 1) child x).2
            = Validator.depth child := by
          rw [← depth_eraseErr ((Validator.runAux (n + 1) child x).2), hframe,
            depth_eraseErr child]
        simp only [Validator.runItems, Validator.checkItems]
        rw [hA.1]
        split
        · rw [ih _ (i + 1) (by rw [hdepth]; exact hd)]
          exact checkItems_congr _ child hframe rest (i + 1)
        · rw [hA.2]
    have E2 : ∀ vs entries, Validator.depthEntries vs < n + 1 →
        (Validator.runEntries (n + 1) vs entries).2 = Validator.checkEntries vs entries := by
      intro vs entries
      induction vs with
      | nil => intro hd; simp [Validator.runEntries, Validator.checkEntries]
      | cons p rest ih =>
        intro hd
        rcases p with ⟨key, w⟩
        have hdw : Validator.depth w < n + 1 := by
          simp only [Validator.depthEntries] at hd
          have := le_max_left (Validator.depth w) (Validator.depthEntries rest)
          omega
        have hdr : Validator.depthEntries rest < n + 1 := by
          simp only [Validator.depthEntries] at hd
          have := le_max_right (Validator.depth w) (Validator.depthEntries rest)
          omega
        rcases hl : dictLookup entries key with _ | val
        · simp only [Validator.runEntries, Validator.checkEntries, hl]
          exact ih hdr
        · have hA := A2 w val hdw
          simp only [Validator.runEntries, Validator.checkEntries, hl]
          rw [hA.1]
          split
          · simpa using ih hdr
          · simp [hA.2]
    exact ⟨A2, I2, E2⟩

/-- One validate(data) call, with the fuel Validator.run supplies:
the returned boolean is the decision and the instance stores exactly the
decision's message. -/
theorem run_agree (v : Validator) (d : PyVal) :
    (Validator.run v d).1 = (v.validate d).1
    ∧ (Validator.run v d).2.get_error_message = (v.validate d).2 :=
  (runAux_agree (v.depth + 1)).1 v d (Nat.lt_succ_self _)

/-! ## Claims C3, C4, C7, C9 -/

/-- C3: NumericValidator and StringValidator accept None exactly when
allow_none is set, and after the call get_error_message() returns the
empty string exactly when the call returned true (so it is non-empty
exactly on failure). -/
theorem spec_C3 (mn mx : Option ℚ) (an : Bool) (e : String)
    (ml : Int) (mxl : Option Int) (av : Option (List String)) (an2 : Bool) (e2 : String) :
    (((Validator.run (.NumericValidator mn mx an e) .none).1 = true) ↔ an = true)
    ∧ ((Validator.run (.NumericValidator mn mx an e) .none).2.get_error_message = ""
        ↔ (Validator.run (.NumericValidator mn mx an e) .none).1 = true)
    ∧ (((Validator.run (.StringValidator ml mxl av an2 e2) .none).1 = true) ↔ an2 = true)
    ∧ ((Validator.run (.StringValidator ml mxl av an2 e2) .none).2.get_error_message = ""
        ↔ (Validator.run (.StringValidator ml mxl av an2 e2) .none).1 = true) := by
  have h1 := run_agree (.NumericValidator mn mx an e) .none
  have h2 := run_agree (.StringValidator ml mxl av an2 e2) .none
  refine ⟨?_, ?_, ?_, ?_⟩
  · rw [h1.1]; cases an <;> simp [Validator.validate]
  · rw [h1.2, h1.1]; cases an <;> simp [Validator.validate, noneMsg_ne]
  · rw [h2.1]; cases an2 <;> simp [Validator.validate]
  · rw [h2.2, h2.1]; cases an2 <;> simp [Validator.validate, noneMsg_ne]

/-- C4: a validate call never escapes by an exception for a failed
check: the embedded call is a total function into a boolean result and a
post-state, and the failure reason is retrievable afterwards through
get_error_message, which returns exactly the message of the decision.
(The one fallible operation of the source, float coercion, is wrapped in
try/except and modelled by the total pyFloat.) -/
theorem spec_C4 (v : Validator) (d : PyVal) :
    ∃ (b : Bool) (v2 : Validator),
      Validator.run v d = (b, v2)
      ∧ v2.get_error_message = (v.validate d).2 :=
  ⟨(Validator.run v d).1, (Validator.run v d).2, rfl, (run_agree v d).2⟩

/-- C7: a validate call leaves every configuration field of the instance
tree unchanged; the only fields that may change are the last-error
fields, which is exactly what equality of the error-erased trees
states. -/
theorem spec_C7 (v : Validator) (d : PyVal) :
    Validator.eraseErr (Validator.run v d).2 = Validator.eraseErr v :=
  (runAux_frame (v.depth + 1)).1 v d

/-- C9: immediately after a validate call, the returned boolean is false
exactly when get_error_message() returns a non-empty string. -/
theorem spec_C9 (v : Validator) (d : PyVal) :
    (Validator.run v d).1 = false
      ↔ (Validator.run v d).2.get_error_message ≠ "" := by
  have h := run_agree v d
  rw [h.1, h.2]
  exact validate_msgOk v d
